import Mathlib

/-!
PufferPanel `web/api/users.go`: the user resource handlers.

A shallow embedding of the HTTP handlers of `web/api/users.go` (route table, search,
create, get, update, delete) together with the library functions they call
(`strconv.Atoi`, `strconv.Itoa`, gin's `DefaultQuery`/`Param`, the response builder),
followed by the properties of the handlers.
-/

set_option autoImplicit false

/-! ## `strconv` (Go standard library) -/

namespace strconv

/-- The two failure causes of the `strconv` parsing functions. -/
inductive NumError where
  | ErrSyntax
  | ErrRange
  deriving DecidableEq, Repr

/-- Width of Go's `int` on the 64-bit targets the panel is built for. -/
def intSize : Nat := 64

/-- Largest `uint64`. -/
def maxUint64 : Nat := 2 ^ 64 - 1

/-- The digit loop of `ParseUint(s, 10, 64)`: `n` is the value read so far.
A byte that is not a decimal digit is a syntax error; a value that leaves `uint64`
is a range error, reported as soon as it happens. -/
def parseUintLoop : List Char → Nat → Except NumError Nat
  | [], n => .ok n
  | c :: cs, n =>
    if '0' ≤ c ∧ c ≤ '9' then
      let d := c.toNat - '0'.toNat
      if n ≥ maxUint64 / 10 + 1 then .error .ErrRange
      else
        let n1 := n * 10 + d
        if n1 > maxUint64 then .error .ErrRange else parseUintLoop cs n1
    else .error .ErrSyntax

/-- The Go function `ParseUint(s, 10, 64)`. -/
def ParseUint (s : List Char) : Except NumError Nat :=
  match s with
  | [] => .error .ErrSyntax
  | _ :: _ => parseUintLoop s 0

/-- The Go function `ParseInt(s, 10, 0)`: one optional sign, then `ParseUint`, then the
check that the magnitude fits a signed `intSize`-bit integer. A range error of
`ParseUint` stays a range error. -/
def ParseInt (s : List Char) : Except NumError Int :=
  match s with
  | [] => .error .ErrSyntax
  | c :: cs =>
    let neg := c == '-'
    let digits := if c == '+' ∨ c == '-' then cs else c :: cs
    match ParseUint digits with
    | .error e => .error e
    | .ok un =>
      let cutoff := 2 ^ (intSize - 1)
      if !neg ∧ un ≥ cutoff then .error .ErrRange
      else if neg ∧ un > cutoff then .error .ErrRange
      else .ok (if neg then -(un : Int) else (un : Int))

/-- The Go function `Atoi(s)`, which is `ParseInt(s, 10, 0)` converted to `int` (its fast path
for short strings computes the same result). -/
def Atoi (s : String) : Except NumError Int :=
  ParseInt s.data

/-- The character of the decimal digit `d`. -/
def digitChar (d : Nat) : Char := Char.ofNat ('0'.toNat + d)

/-- The decimal digits of `u` written in front of `acc`, as `formatBits` writes them from
the end of its buffer; `fuel` bounds the number of digits. -/
def formatBits : Nat → Nat → List Char → List Char
  | 0, _, acc => acc
  | fuel + 1, u, acc =>
    if u < 10 then digitChar u :: acc
    else formatBits fuel (u / 10) (digitChar (u % 10) :: acc)

/-- The Go function `FormatInt(i, 10)` for a 64-bit `i`: at most 20 digits, after a minus
sign when `i` is negative. -/
def FormatInt (i : Int) : String :=
  if i < 0 then String.mk ('-' :: formatBits 20 i.natAbs [])
  else String.mk (formatBits 20 i.natAbs [])

/-- The Go function `Itoa(i)`, which is `FormatInt(int64(i), 10)`. -/
def Itoa (i : Int) : String := FormatInt i

end strconv

/-! ## Collaborating packages -/

/-- A Go `error` value: its message and, when the error carries one, its own HTTP status. -/
structure Error where
  message : String
  status : Option Nat
  deriving DecidableEq, Repr

namespace errors

/-- The Go function `errors.New(text)`: an error that is only a message. -/
def New (text : String) : Error := { message := text, status := none }

end errors

namespace models

/-- Modelled from the spec: the declaration of `models.User` is not part of the sources.
The entity is identified by its username and has an email, a password credential and
other profile attributes. -/
structure User where
  Username : String := ""
  Email : String := ""
  Password : String := ""
  Other : List (String × String) := []
  deriving DecidableEq, Repr

end models

namespace view

/-- Modelled from the spec: the declaration of `view.UserViewModel` is not part of the
sources. It is the transport projection of a user; a field left out of the JSON body is
the empty string, as for every Go string field. -/
structure UserViewModel where
  Username : String := ""
  Email : String := ""
  Password : String := ""
  deriving DecidableEq, Repr

/-- Modelled from the spec: `UserViewModel.CopyToModel` is not part of the sources.
It merges the fields that are present in the view model into the entity and preserves the
others. -/
def UserViewModel.CopyToModel (model : UserViewModel) (newModel : models.User) : models.User :=
  { newModel with
    Username := if model.Username ≠ "" then model.Username else newModel.Username
    Email := if model.Email ≠ "" then model.Email else newModel.Email
    Password := if model.Password ≠ "" then model.Password else newModel.Password }

end view

namespace builder

/-- Paging metadata of a response. -/
structure Paging where
  page : Nat
  pageSize : Nat
  maxSize : Nat
  total : Nat
  deriving DecidableEq, Repr

/-- Payload of a response: one user or a page of users. -/
inductive Payload where
  | user (v : view.UserViewModel)
  | users (vs : List view.UserViewModel)
  deriving DecidableEq, Repr

/-- State of the response builder of `apufferi/http`. -/
structure Response where
  success : Bool
  status : Nat
  message : Option String
  data : Option Payload
  paging : Option Paging
  sent : Bool
  deriving DecidableEq, Repr

/-- The builder function `Respond(c)`: a successful response with status 200, nothing set. -/
def Respond : Response :=
  { success := true, status := 200, message := none, data := none, paging := none,
    sent := false }

/-- The builder method `Fail()`. -/
def Response.Fail (r : Response) : Response := { r with success := false }

/-- The builder method `Status(code)`. -/
def Response.Status (r : Response) (code : Nat) : Response := { r with status := code }

/-- The builder method `Message(text)`. -/
def Response.Message (r : Response) (text : String) : Response := { r with message := some text }

/-- The builder method `Data(value)`. -/
def Response.Data (r : Response) (value : Payload) : Response := { r with data := some value }

/-- The builder method `PageInfo(page, pageSize, maxSize, total)`. -/
def Response.PageInfo (r : Response) (page pageSize maxSize total : Nat) : Response :=
  { r with paging := some { page := page, pageSize := pageSize, maxSize := maxSize, total := total } }

/-- The builder method `Send()`. -/
def Response.Send (r : Response) : Response := { r with sent := true }

end builder

namespace http

/-- Status code 400. -/
def StatusBadRequest : Nat := 400

/-- Status code 404. -/
def StatusNotFound : Nat := 404

end http

namespace shared

/-- Modelled from the spec: `shared.HandleError` is not part of the sources. A nil error
leaves the response alone and the handler goes on (result `false`); any other error ends
the request with a single failure payload (result `true`). An error that carries its
own status is propagated with it; one without (validation, parsing) is a client error. -/
def HandleError (response : builder.Response) (err : Option Error) : builder.Response × Bool :=
  match err with
  | none => (response, false)
  | some e =>
    (((response.Fail.Status (e.status.getD http.StatusBadRequest)).Message e.message).Send, true)

end shared

namespace gin

/-- The parts of a gin request context the handlers read: the query string as key and value
pairs in order, the path parameters, and what binding the JSON body to a
`view.UserViewModel` gives. -/
structure Context where
  query : List (String × String)
  params : List (String × String)
  body : Except Error view.UserViewModel

/-- The gin method `GetQuery(key)`: the first value of the key, if the key occurs. -/
def Context.GetQuery (c : Context) (key : String) : Option String :=
  c.query.lookup key

/-- The gin method `DefaultQuery(key, defaultValue)`. -/
def Context.DefaultQuery (c : Context) (key defaultValue : String) : String :=
  match c.GetQuery key with
  | some value => value
  | none => defaultValue

/-- The gin method `Param(key)`: the path parameter, or the empty string. -/
def Context.Param (c : Context) (key : String) : String :=
  match c.params.lookup key with
  | some value => value
  | none => ""

/-- The gin method `BindJSON(&viewModel)`. -/
def Context.BindJSON (c : Context) : Except Error view.UserViewModel :=
  c.body

end gin

namespace services

/-- The interface `services.UserService` over a store of type `σ`. `Search` and `Get` are
queries; `Create`, `Update` and `Delete` return the store they leave behind, and the first
two also the entity as they leave it (they receive a pointer). `Get` gives `none` when it
reports `exists = false`. -/
structure UserService (σ : Type) where
  Search : σ → String → String → Nat → Nat → Except Error (List models.User × Nat)
  Create : σ → models.User → Except Error models.User × σ
  Get : σ → String → Except Error (Option models.User)
  Update : σ → models.User → Except Error models.User × σ
  Delete : σ → String → Option Error × σ

end services

namespace api

/-- What the handlers take from the rest of the program: the two paging constants of the
package, the service accessor `services.GetUserService`, and the functions of package
`view`. -/
structure Env (σ : Type) where
  DefaultPageSize : Int
  MaxPageSize : Nat
  GetUserService : Except Error (services.UserService σ)
  Valid : view.UserViewModel → Bool → Option Error
  CopyToModel : view.UserViewModel → models.User → models.User
  FromUser : models.User → view.UserViewModel
  FromUsers : List models.User → List view.UserViewModel

/-- A call a handler makes to one of its collaborators. -/
inductive Call where
  | GetUserService
  | BindJSON
  | Valid (viewModel : view.UserViewModel) (allowEmpty : Bool)
  | Search (usernameFilter emailFilter : String) (pageSize page : Nat)
  | Create (user : models.User)
  | Get (username : String)
  | Update (user : models.User)
  | Delete (username : String)
  deriving DecidableEq, Repr

/-- What running a handler leaves: the response sent, the collaborator calls in order, and
the store of the user service. -/
structure Outcome (σ : Type) where
  response : builder.Response
  calls : List Call
  state : σ

/-- The Go conversion `uint(x)` of an `int`. -/
def uint (x : Int) : Nat := (x % 2 ^ 64).toNat

/-- A link of a route's handler chain. -/
inductive Handler where
  | OAuth2 (scope : String) (requireServer : Bool)
  | CreateOptions (methods : List String)
  | searchUsers
  | createUser
  | getUser
  | updateUser
  | deleteUser
  deriving DecidableEq, Repr

/-- One `g.Handle(method, path, handlers...)` registration. -/
structure Route where
  method : String
  path : String
  chain : List Handler
  deriving DecidableEq, Repr

/-- The routes `registerUsers` adds to the group, in order. -/
def registerUsers : List Route :=
  [ { method := "GET", path := "", chain := [.OAuth2 "users.edit" false, .searchUsers] },
    { method := "OPTIONS", path := "", chain := [.CreateOptions ["GET"]] },
    { method := "PUT", path := "/:username", chain := [.OAuth2 "users.edit" false, .createUser] },
    { method := "GET", path := "/:username", chain := [.OAuth2 "users.view" false, .getUser] },
    { method := "POST", path := "/:username", chain := [.OAuth2 "users.edit" false, .updateUser] },
    { method := "DELETE", path := "/:username", chain := [.OAuth2 "users.edit" false, .deleteUser] },
    { method := "OPTIONS", path := "/:username",
      chain := [.CreateOptions ["PUT", "GET", "POST", "DELETE"]] } ]

variable {σ : Type}

/-- Handler `searchUsers`. -/
def searchUsers (E : Env σ) (c : gin.Context) (s : σ) : Outcome σ :=
  let response := builder.Respond
  let usernameFilter := c.DefaultQuery "username" "*"
  let emailFilter := c.DefaultQuery "email" "*"
  let pageSizeQuery := c.DefaultQuery "limit" (strconv.Itoa E.DefaultPageSize)
  let pageQuery := c.DefaultQuery "page" (strconv.Itoa 1)
  let badPageSize : Outcome σ :=
    { response :=
        ((response.Fail.Status http.StatusBadRequest).Message
          "page size must be a positive number").Send,
      calls := [], state := s }
  let badPage : Outcome σ :=
    { response :=
        ((response.Fail.Status http.StatusBadRequest).Message
          "page must be a positive number").Send,
      calls := [], state := s }
  match strconv.Atoi pageSizeQuery with
  | .error _ => badPageSize
  | .ok pageSize =>
    if pageSize ≤ 0 then badPageSize
    else
      let pageSize := if pageSize > (E.MaxPageSize : Int) then (E.MaxPageSize : Int) else pageSize
      match strconv.Atoi pageQuery with
      | .error _ => badPage
      | .ok page =>
        if page ≤ 0 then badPage
        else
          match E.GetUserService with
          | .error err =>
            { response := (shared.HandleError response (some err)).1,
              calls := [.GetUserService], state := s }
          | .ok us =>
            let calls := [Call.GetUserService,
              Call.Search usernameFilter emailFilter (uint pageSize) (uint page)]
            match us.Search s usernameFilter emailFilter (uint pageSize) (uint page) with
            | .error err =>
              { response := (shared.HandleError response (some err)).1,
                calls := calls, state := s }
            | .ok (results, total) =>
              { response :=
                  ((response.PageInfo (uint page) (uint pageSize) E.MaxPageSize total).Data
                    (.users (E.FromUsers results))).Send,
                calls := calls, state := s }

/-- Handler `createUser`. -/
def createUser (E : Env σ) (c : gin.Context) (s : σ) : Outcome σ :=
  let response := builder.Respond
  match E.GetUserService with
  | .error err =>
    { response := (shared.HandleError response (some err)).1,
      calls := [.GetUserService], state := s }
  | .ok us =>
    match c.BindJSON with
    | .error err =>
      { response := (shared.HandleError response (some err)).1,
        calls := [.GetUserService, .BindJSON], state := s }
    | .ok viewModel =>
      let viewModel := { viewModel with Username := c.Param "username" }
      let calls := [Call.GetUserService, Call.BindJSON, Call.Valid viewModel false]
      match E.Valid viewModel false with
      | some err =>
        { response := (shared.HandleError response (some err)).1, calls := calls, state := s }
      | none =>
        if viewModel.Password = "" then
          { response :=
              (shared.HandleError response (some (errors.New "password is required"))).1,
            calls := calls, state := s }
        else
          let user := E.CopyToModel viewModel {}
          match us.Create s user with
          | (.error err, s') =>
            { response := (shared.HandleError response (some err)).1,
              calls := calls ++ [.Create user], state := s' }
          | (.ok user', s') =>
            { response := (response.Data (.user (E.FromUser user'))).Send,
              calls := calls ++ [.Create user], state := s' }

/-- Handler `getUser`. -/
def getUser (E : Env σ) (c : gin.Context) (s : σ) : Outcome σ :=
  let response := builder.Respond
  match E.GetUserService with
  | .error err =>
    { response := (shared.HandleError response (some err)).1,
      calls := [.GetUserService], state := s }
  | .ok us =>
    let username := c.Param "username"
    let calls := [Call.GetUserService, Call.Get username]
    match us.Get s username with
    | .error err =>
      { response := (shared.HandleError response (some err)).1, calls := calls, state := s }
    | .ok none =>
      { response :=
          ((response.Fail.Status http.StatusNotFound).Message "no user with username").Send,
        calls := calls, state := s }
    | .ok (some user) =>
      { response := (response.Data (.user (E.FromUser user))).Send, calls := calls, state := s }

/-- Handler `updateUser`. -/
def updateUser (E : Env σ) (c : gin.Context) (s : σ) : Outcome σ :=
  let response := builder.Respond
  match E.GetUserService with
  | .error err =>
    { response := (shared.HandleError response (some err)).1,
      calls := [.GetUserService], state := s }
  | .ok us =>
    let username := c.Param "username"
    match c.BindJSON with
    | .error err =>
      { response := (shared.HandleError response (some err)).1,
        calls := [.GetUserService, .BindJSON], state := s }
    | .ok viewModel =>
      match E.Valid viewModel true with
      | some err =>
        { response := (shared.HandleError response (some err)).1,
          calls := [.GetUserService, .BindJSON, .Valid viewModel true], state := s }
      | none =>
        let calls := [Call.GetUserService, Call.BindJSON, Call.Valid viewModel true,
          Call.Get username]
        match us.Get s username with
        | .error err =>
          { response := (shared.HandleError response (some err)).1, calls := calls, state := s }
        | .ok none =>
          { response :=
              ((response.Fail.Status http.StatusNotFound).Message "no user with username").Send,
            calls := calls, state := s }
        | .ok (some user) =>
          let user := E.CopyToModel viewModel user
          match us.Update s user with
          | (.error err, s') =>
            { response := (shared.HandleError response (some err)).1,
              calls := calls ++ [.Update user], state := s' }
          | (.ok user', s') =>
            { response := (response.Data (.user (E.FromUser user'))).Send,
              calls := calls ++ [.Update user], state := s' }

/-- Handler `deleteUser`. -/
def deleteUser (E : Env σ) (c : gin.Context) (s : σ) : Outcome σ :=
  let response := builder.Respond
  match E.GetUserService with
  | .error err =>
    { response := (shared.HandleError response (some err)).1,
      calls := [.GetUserService], state := s }
  | .ok us =>
    let username := c.Param "username"
    let calls := [Call.GetUserService, Call.Get username]
    match us.Get s username with
    | .error err =>
      { response := (shared.HandleError response (some err)).1, calls := calls, state := s }
    | .ok none =>
      { response :=
          ((response.Fail.Status http.StatusNotFound).Message "no user with username").Send,
        calls := calls, state := s }
    | .ok (some user) =>
      match us.Delete s user.Username with
      | (some err, s') =>
        { response := (shared.HandleError response (some err)).1,
          calls := calls ++ [.Delete user.Username], state := s' }
      | (none, s') =>
        { response := (response.Data (.user (E.FromUser user))).Send,
          calls := calls ++ [.Delete user.Username], state := s' }

end api

/-! ## A concrete instance: an in-memory user service -/

namespace api.fixture

/-- An in-memory store with one user. -/
def store : List models.User :=
  [{ Username := "alice", Email := "alice@example.org", Password := "secret",
     Other := [("lang", "en")] }]

/-- A user service over a list of users. -/
def memory : services.UserService (List models.User) where
  Search st _ _ pageSize _ := .ok (st.take pageSize, st.length)
  Create st u := (.ok u, st ++ [u])
  Get st name := .ok (st.find? (fun u => u.Username == name))
  Update st u := (.ok u, st.map (fun v => if v.Username == u.Username then u else v))
  Delete st name := (none, st.filter (fun u => u.Username != name))

/-- An environment around the in-memory service. -/
def env : Env (List models.User) where
  DefaultPageSize := 20
  MaxPageSize := 100
  GetUserService := .ok memory
  Valid vm allowEmpty :=
    if allowEmpty = false ∧ vm.Username = "" then some (errors.New "username is required")
    else none
  CopyToModel := view.UserViewModel.CopyToModel
  FromUser u := { Username := u.Username, Email := u.Email }
  FromUsers us := us.map (fun u => { Username := u.Username, Email := u.Email })

/-- A request with the given query, path username and bound body. -/
def request (query : List (String × String)) (username : String)
    (body : view.UserViewModel) : gin.Context :=
  { query := query, params := [("username", username)], body := .ok body }

end api.fixture

/-! ## Facts about `strconv` -/

namespace strconv

theorem digitChar_isDigit (d : Nat) (h : d < 10) :
    ('0' ≤ digitChar d ∧ digitChar d ≤ '9') ∧ (digitChar d).toNat - '0'.toNat = d := by
  interval_cases d <;> decide

theorem parseUintLoop_digit (d n : Nat) (cs : List Char) (hd : d < 10)
    (hn : n * 10 + d ≤ maxUint64) :
    parseUintLoop (digitChar d :: cs) n = parseUintLoop cs (n * 10 + d) := by
  obtain ⟨hc, hv⟩ := digitChar_isDigit d hd
  have h1 : ¬ n ≥ maxUint64 / 10 + 1 := by
    simp only [maxUint64] at hn ⊢
    omega
  have h2 : ¬ n * 10 + d > maxUint64 := by omega
  simp only [parseUintLoop, hc, and_self, if_true, hv, h1, h2, if_false]

theorem parseUintLoop_formatBits (fuel : Nat) :
    ∀ (u : Nat) (acc : List Char), u < 10 ^ fuel → u ≤ maxUint64 →
      parseUintLoop (formatBits fuel u acc) 0 = parseUintLoop acc u := by
  induction fuel with
  | zero =>
    intro u acc hu _
    have : u = 0 := by simpa using hu
    subst this
    rfl
  | succ fuel ih =>
    intro u acc hu hmax
    unfold formatBits
    split
    · rename_i hlt
      rw [parseUintLoop_digit u 0 acc hlt (by omega)]
      simp
    · rename_i hge
      have hdiv : u / 10 < 10 ^ fuel := by
        rw [Nat.div_lt_iff_lt_mul (by decide)]
        rw [pow_succ] at hu
        exact hu
      rw [ih (u / 10) _ hdiv (by omega)]
      rw [parseUintLoop_digit (u % 10) (u / 10) acc (Nat.mod_lt _ (by decide)) (by omega)]
      congr 1
      omega

theorem formatBits_head (fuel : Nat) :
    ∀ (u : Nat) (acc : List Char),
      ∃ d rest, d < 10 ∧ formatBits (fuel + 1) u acc = digitChar d :: rest := by
  induction fuel with
  | zero =>
    intro u acc
    unfold formatBits
    split
    · rename_i hlt
      exact ⟨u, acc, hlt, rfl⟩
    · exact ⟨u % 10, acc, Nat.mod_lt _ (by decide), rfl⟩
  | succ fuel ih =>
    intro u acc
    unfold formatBits
    split
    · rename_i hlt
      exact ⟨u, acc, hlt, rfl⟩
    · exact ih (u / 10) _

theorem digitChar_ne_sign (d : Nat) (h : d < 10) :
    (digitChar d == '+') = false ∧ (digitChar d == '-') = false := by
  interval_cases d <;> decide

theorem ParseInt_formatBits_nonneg (u : Nat) (hu : u < 2 ^ 63) :
    ParseInt (formatBits 20 u []) = .ok (u : Int) := by
  obtain ⟨d, rest, hd, hfb⟩ := formatBits_head 19 u []
  obtain ⟨hplus, hminus⟩ := digitChar_ne_sign d hd
  have hloop := parseUintLoop_formatBits 20 u [] (by omega) (by simp only [maxUint64]; omega)
  rw [hfb] at hloop
  have hPU : ParseUint (digitChar d :: rest) = .ok u := by
    show parseUintLoop (digitChar d :: rest) 0 = .ok u
    rw [hloop]
    rfl
  have hcut : ¬ ((2 : Nat) ^ (intSize - 1) ≤ u) := by
    simp only [intSize]
    omega
  simp only [hfb, ParseInt, hplus, hminus]
  simp only [Bool.false_eq_true, or_self, if_false, hPU]
  simp [hcut]

theorem ParseInt_formatBits_neg (u : Nat) (hu : u ≤ 2 ^ 63) :
    ParseInt ('-' :: formatBits 20 u []) = .ok (-(u : Int)) := by
  obtain ⟨d, rest, hd, hfb⟩ := formatBits_head 19 u []
  have hloop := parseUintLoop_formatBits 20 u [] (by omega) (by simp only [maxUint64]; omega)
  rw [hfb] at hloop
  have hPU : ParseUint (digitChar d :: rest) = .ok u := by
    show parseUintLoop (digitChar d :: rest) 0 = .ok u
    rw [hloop]
    rfl
  have hcut : ¬ ((2 : Nat) ^ (intSize - 1) < u) := by
    simp only [intSize]
    omega
  have hm : ('-' == '-') = true := by decide
  simp only [hfb, ParseInt, hm]
  simp only [or_true, if_true, hPU]
  simp [hcut]

/-- The function `Atoi` reads back what `Itoa` writes, for every 64-bit `int`. -/
theorem Atoi_Itoa (i : Int) (hlo : -(2 : Int) ^ 63 ≤ i) (hhi : i < 2 ^ 63) :
    Atoi (Itoa i) = .ok i := by
  unfold Atoi Itoa FormatInt
  split
  · rename_i hneg
    have h := ParseInt_formatBits_neg i.natAbs (by omega)
    simp only [h]
    congr 1
    omega
  · rename_i hnn
    have h := ParseInt_formatBits_nonneg i.natAbs (by omega)
    simp only [h]
    congr 1
    omega

theorem ParseInt_range (l : List Char) (n : Int) (h : ParseInt l = .ok n) :
    -(2 : Int) ^ 63 ≤ n ∧ n < 2 ^ 63 := by
  cases l with
  | nil => cases h
  | cons c cs =>
    simp only [ParseInt, intSize] at h
    split at h
    · cases h
    · rename_i un hun
      split at h
      · cases h
      · split at h
        · cases h
        · rename_i h1 h2
          injection h with h
          subst h
          by_cases hneg : (c == '-') = true
          · simp only [hneg] at h1 h2 ⊢
            simp at h2 ⊢
            omega
          · simp only [Bool.not_eq_true] at hneg
            simp only [hneg] at h1 h2 ⊢
            simp at h1 ⊢
            omega

/-- A value `Atoi` returns is a 64-bit `int`. -/
theorem Atoi_range (s : String) (n : Int) (h : Atoi s = .ok n) :
    -(2 : Int) ^ 63 ≤ n ∧ n < 2 ^ 63 :=
  ParseInt_range s.data n h

end strconv

/-! ## The handlers -/

namespace api

variable {σ : Type}

theorem uint_of_nonneg (x : Int) (h0 : 0 ≤ x) (h1 : x < 2 ^ 63) : uint x = x.toNat := by
  unfold uint
  rw [Int.emod_eq_of_lt h0 (by omega)]

/-- With a positive limit and page and the service at hand, `searchUsers` calls the
service once and then `Search` with the capped size. -/
theorem searchUsers_calls (E : Env σ) (c : gin.Context) (s : σ)
    (us : services.UserService σ) (limit page : Int)
    (hsvc : E.GetUserService = .ok us)
    (hlimit : strconv.Atoi (c.DefaultQuery "limit" (strconv.Itoa E.DefaultPageSize)) = .ok limit)
    (hl : 0 < limit)
    (hpage : strconv.Atoi (c.DefaultQuery "page" (strconv.Itoa 1)) = .ok page)
    (hp : 0 < page) :
    (searchUsers E c s).calls =
      [.GetUserService,
        .Search (c.DefaultQuery "username" "*") (c.DefaultQuery "email" "*")
          (uint (if limit > (E.MaxPageSize : Int) then (E.MaxPageSize : Int) else limit))
          (uint page)] := by
  simp only [searchUsers, hlimit, hpage, hsvc, not_le.mpr hl, not_le.mpr hp, if_false]
  split <;> rfl

/-- With a positive limit and page, the service at hand and a successful `Search`,
`searchUsers` reports the page, the capped size, the maximum and the total. -/
theorem searchUsers_paging (E : Env σ) (c : gin.Context) (s : σ)
    (us : services.UserService σ) (limit page : Int)
    (results : List models.User) (total : Nat)
    (hsvc : E.GetUserService = .ok us)
    (hlimit : strconv.Atoi (c.DefaultQuery "limit" (strconv.Itoa E.DefaultPageSize)) = .ok limit)
    (hl : 0 < limit)
    (hpage : strconv.Atoi (c.DefaultQuery "page" (strconv.Itoa 1)) = .ok page)
    (hp : 0 < page)
    (hsearch : us.Search s (c.DefaultQuery "username" "*") (c.DefaultQuery "email" "*")
      (uint (if limit > (E.MaxPageSize : Int) then (E.MaxPageSize : Int) else limit))
      (uint page) = .ok (results, total)) :
    (searchUsers E c s).response =
      ((builder.Respond.PageInfo (uint page)
        (uint (if limit > (E.MaxPageSize : Int) then (E.MaxPageSize : Int) else limit))
        E.MaxPageSize total).Data (.users (E.FromUsers results))).Send := by
  simp only [searchUsers, hlimit, hpage, hsvc, not_le.mpr hl, not_le.mpr hp, if_false, hsearch]

/-- C1: in `searchUsers`, when the limit parses to an integer above `MaxPageSize` and
the page to a positive integer, the size passed to `Search` and the size reported in the
page info are both `MaxPageSize`; when `1 ≤ limit ≤ MaxPageSize` the size is the limit
itself. Here `size` is that expected size: every `Search` call and every page info carry
it, and with the user service at hand `Search` is called, and reports it when it
succeeds. -/
theorem searchUsers_page_size_capped (E : Env σ) (c : gin.Context) (s : σ)
    (limit page : Int) (size : Nat)
    (hmax : (E.MaxPageSize : Int) < 2 ^ 63)
    (hlimit : strconv.Atoi (c.DefaultQuery "limit" (strconv.Itoa E.DefaultPageSize)) = .ok limit)
    (hpage : strconv.Atoi (c.DefaultQuery "page" (strconv.Itoa 1)) = .ok page)
    (hp : 0 < page)
    (hsize : ((E.MaxPageSize : Int) < limit ∧ size = E.MaxPageSize) ∨
      (1 ≤ limit ∧ limit ≤ (E.MaxPageSize : Int) ∧ size = limit.toNat)) :
    (∀ usernameFilter emailFilter pageSize pageNumber,
      Call.Search usernameFilter emailFilter pageSize pageNumber ∈ (searchUsers E c s).calls →
        pageSize = size) ∧
    (∀ info, (searchUsers E c s).response.paging = some info → info.pageSize = size) ∧
    (∀ us, E.GetUserService = .ok us →
      (searchUsers E c s).calls =
        [.GetUserService,
          .Search (c.DefaultQuery "username" "*") (c.DefaultQuery "email" "*")
            size page.toNat] ∧
      ∀ results total,
        us.Search s (c.DefaultQuery "username" "*") (c.DefaultQuery "email" "*")
            size page.toNat = .ok (results, total) →
          (searchUsers E c s).response.paging =
            some { page := page.toNat, pageSize := size,
                   maxSize := E.MaxPageSize, total := total }) := by
  have hpr := strconv.Atoi_range _ _ hpage
  have hpu : uint page = page.toNat := uint_of_nonneg page (by omega) hpr.2
  have hl : 0 < limit := by omega
  have hsz : uint (if limit > (E.MaxPageSize : Int) then (E.MaxPageSize : Int) else limit)
      = size := by
    rcases hsize with ⟨hgt, rfl⟩ | ⟨_, hle, rfl⟩
    · rw [if_pos hgt, uint_of_nonneg _ (by omega) hmax]
      simp
    · rw [if_neg (by omega), uint_of_nonneg _ (by omega) (by omega)]
  have withService : ∀ us, E.GetUserService = .ok us →
      (searchUsers E c s).calls =
        [.GetUserService,
          .Search (c.DefaultQuery "username" "*") (c.DefaultQuery "email" "*")
            size page.toNat] ∧
      ∀ results total,
        us.Search s (c.DefaultQuery "username" "*") (c.DefaultQuery "email" "*")
            size page.toNat = .ok (results, total) →
          (searchUsers E c s).response.paging =
            some { page := page.toNat, pageSize := size,
                   maxSize := E.MaxPageSize, total := total } := by
    intro us hsvc
    have hcalls := searchUsers_calls E c s us limit page hsvc hlimit hl hpage hp
    rw [hsz, hpu] at hcalls
    refine ⟨hcalls, ?_⟩
    intro results total hsearch
    have hresp := searchUsers_paging E c s us limit page results total hsvc hlimit hl hpage hp
      (by rw [hsz, hpu]; exact hsearch)
    rw [hresp, hsz, hpu]
    rfl
  refine ⟨?_, ?_, withService⟩
  · intro usernameFilter emailFilter pageSize pageNumber hmem
    cases hsvc : E.GetUserService with
    | error err =>
      simp [searchUsers, hlimit, hpage, hsvc, not_le.mpr hl, not_le.mpr hp] at hmem
    | ok us =>
      rw [(withService us hsvc).1] at hmem
      simp at hmem
      exact hmem.2.2.1
  · intro info hinfo
    cases hsvc : E.GetUserService with
    | error err =>
      simp [searchUsers, hlimit, hpage, hsvc, not_le.mpr hl, not_le.mpr hp,
        shared.HandleError, builder.Respond, builder.Response.Fail, builder.Response.Status,
        builder.Response.Message, builder.Response.Send] at hinfo
    | ok us =>
      cases hsearch : us.Search s (c.DefaultQuery "username" "*")
          (c.DefaultQuery "email" "*") size page.toNat with
      | error err =>
        simp [searchUsers, hlimit, hpage, hsvc, not_le.mpr hl, not_le.mpr hp, hsz, hpu, hsearch,
          shared.HandleError, builder.Respond, builder.Response.Fail, builder.Response.Status,
          builder.Response.Message, builder.Response.Send] at hinfo
      | ok r =>
        obtain ⟨results, total⟩ := r
        rw [(withService us hsvc).2 results total hsearch] at hinfo
        injection hinfo with hinfo
        rw [← hinfo]

/-- C1 at a request with `limit=250` and `page=2` against the in-memory service, whose
maximum page size is 100. -/
theorem searchUsers_page_size_capped_witness :
    ((fixture.env.MaxPageSize : Int) < 2 ^ 63 ∧
      strconv.Atoi ((fixture.request [("limit", "250"), ("page", "2")] "" {}).DefaultQuery
        "limit" (strconv.Itoa fixture.env.DefaultPageSize)) = .ok 250 ∧
      strconv.Atoi ((fixture.request [("limit", "250"), ("page", "2")] "" {}).DefaultQuery
        "page" (strconv.Itoa 1)) = .ok 2 ∧
      (0 : Int) < 2 ∧ (fixture.env.MaxPageSize : Int) < 250 ∧
      (100 : Nat) = fixture.env.MaxPageSize) ∧
    (searchUsers fixture.env (fixture.request [("limit", "250"), ("page", "2")] "" {})
        fixture.store).calls =
      [.GetUserService, .Search "*" "*" 100 2] :=
  ⟨⟨by decide, rfl, rfl, by decide, by decide, rfl⟩,
    ((searchUsers_page_size_capped fixture.env
      (fixture.request [("limit", "250"), ("page", "2")] "" {}) fixture.store
      250 2 100 (by decide) rfl rfl (by decide) (Or.inl ⟨by decide, rfl⟩)).2.2
        fixture.memory rfl).1⟩

/-- C8: in `searchUsers`, a request without query parameters makes `Search` be called
with the filters `"*"` and `"*"`, the size `min(DefaultPageSize, MaxPageSize)` and page 1,
given `DefaultPageSize > 0`; and each of the four arguments comes from its own query
parameter when that one is supplied and from its own default when it is not. -/
theorem searchUsers_defaults (E : Env σ) (c : gin.Context) (s : σ)
    (us : services.UserService σ)
    (hd0 : 0 < E.DefaultPageSize) (hd1 : E.DefaultPageSize < 2 ^ 63)
    (hmax : (E.MaxPageSize : Int) < 2 ^ 63)
    (hsvc : E.GetUserService = .ok us) :
    (c.query = [] →
      (searchUsers E c s).calls =
        [.GetUserService, .Search "*" "*" (min E.DefaultPageSize.toNat E.MaxPageSize) 1]) ∧
    (∀ limit page : Int, 0 < limit → 0 < page →
      (match c.GetQuery "limit" with
        | some v => strconv.Atoi v = .ok limit
        | none => limit = E.DefaultPageSize) →
      (match c.GetQuery "page" with
        | some v => strconv.Atoi v = .ok page
        | none => page = 1) →
      (searchUsers E c s).calls =
        [.GetUserService,
          .Search ((c.GetQuery "username").getD "*") ((c.GetQuery "email").getD "*")
            (min limit.toNat E.MaxPageSize) page.toNat]) := by
  have general : ∀ limit page : Int, 0 < limit → 0 < page →
      (match c.GetQuery "limit" with
        | some v => strconv.Atoi v = .ok limit
        | none => limit = E.DefaultPageSize) →
      (match c.GetQuery "page" with
        | some v => strconv.Atoi v = .ok page
        | none => page = 1) →
      (searchUsers E c s).calls =
        [.GetUserService,
          .Search ((c.GetQuery "username").getD "*") ((c.GetQuery "email").getD "*")
            (min limit.toNat E.MaxPageSize) page.toNat] := by
    intro limit page hl hp hlim hpg
    have hlimit : strconv.Atoi (c.DefaultQuery "limit" (strconv.Itoa E.DefaultPageSize))
        = .ok limit := by
      unfold gin.Context.DefaultQuery
      cases hq : c.GetQuery "limit" with
      | some v => rw [hq] at hlim; exact hlim
      | none =>
        rw [hq] at hlim
        simp only [hlim]
        exact strconv.Atoi_Itoa _ (by omega) hd1
    have hpage : strconv.Atoi (c.DefaultQuery "page" (strconv.Itoa 1)) = .ok page := by
      unfold gin.Context.DefaultQuery
      cases hq : c.GetQuery "page" with
      | some v => rw [hq] at hpg; exact hpg
      | none =>
        rw [hq] at hpg
        simp only [hpg]
        rfl
    have hlr := strconv.Atoi_range _ _ hlimit
    have hpr := strconv.Atoi_range _ _ hpage
    have hcalls := searchUsers_calls E c s us limit page hsvc hlimit hl hpage hp
    have hpu : uint page = page.toNat := uint_of_nonneg page (by omega) hpr.2
    have hsz : uint (if limit > (E.MaxPageSize : Int) then (E.MaxPageSize : Int) else limit)
        = min limit.toNat E.MaxPageSize := by
      split
      · rw [uint_of_nonneg _ (by omega) hmax]
        simp only [Int.toNat_ofNat]
        omega
      · rw [uint_of_nonneg _ (by omega) hlr.2]
        omega
    have huf : c.DefaultQuery "username" "*" = (c.GetQuery "username").getD "*" := by
      unfold gin.Context.DefaultQuery
      cases c.GetQuery "username" <;> rfl
    have hef : c.DefaultQuery "email" "*" = (c.GetQuery "email").getD "*" := by
      unfold gin.Context.DefaultQuery
      cases c.GetQuery "email" <;> rfl
    rw [hsz, hpu, huf, hef] at hcalls
    exact hcalls
  refine ⟨?_, general⟩
  intro hq
  have h := general E.DefaultPageSize 1 hd0 (by decide)
    (by simp [gin.Context.GetQuery, hq]) (by simp [gin.Context.GetQuery, hq])
  simpa [gin.Context.GetQuery, hq] using h

/-- C8 at the empty request against the in-memory service: default size 20, maximum 100. -/
theorem searchUsers_defaults_witness :
    ((0 : Int) < fixture.env.DefaultPageSize ∧ fixture.env.DefaultPageSize < 2 ^ 63 ∧
      (fixture.env.MaxPageSize : Int) < 2 ^ 63 ∧
      fixture.env.GetUserService = .ok fixture.memory ∧
      (fixture.request [] "" {}).query = []) ∧
    (searchUsers fixture.env (fixture.request [] "" {}) fixture.store).calls =
      [.GetUserService, .Search "*" "*" 20 1] :=
  ⟨⟨by decide, by decide, by decide, rfl, rfl⟩,
    (searchUsers_defaults fixture.env (fixture.request [] "" {}) fixture.store fixture.memory
      (by decide) (by decide) (by decide) rfl).1 rfl⟩

/-- C2: in `searchUsers`, when the limit or the page is not a positive integer (`Atoi`
fails on it, or gives a value `≤ 0`), the response is a failure with status 400 and
neither `GetUserService` nor `Search` is called. -/
theorem searchUsers_bad_pagination (E : Env σ) (c : gin.Context) (s : σ)
    (h : (¬ ∃ n, strconv.Atoi (c.DefaultQuery "limit" (strconv.Itoa E.DefaultPageSize)) = .ok n
            ∧ 0 < n) ∨
         (¬ ∃ n, strconv.Atoi (c.DefaultQuery "page" (strconv.Itoa 1)) = .ok n ∧ 0 < n)) :
    (searchUsers E c s).response.success = false ∧
    (searchUsers E c s).response.status = 400 ∧
    (searchUsers E c s).response.data = none ∧
    (searchUsers E c s).response.sent = true ∧
    (searchUsers E c s).calls = [] ∧
    (searchUsers E c s).state = s := by
  unfold searchUsers
  simp only
  cases hl : strconv.Atoi (c.DefaultQuery "limit" (strconv.Itoa E.DefaultPageSize)) with
  | error e => exact ⟨rfl, rfl, rfl, rfl, rfl, rfl⟩
  | ok limit =>
    simp only
    by_cases hl0 : limit ≤ 0
    · rw [if_pos hl0]
      exact ⟨rfl, rfl, rfl, rfl, rfl, rfl⟩
    · rw [if_neg hl0]
      cases hp : strconv.Atoi (c.DefaultQuery "page" (strconv.Itoa 1)) with
      | error e => exact ⟨rfl, rfl, rfl, rfl, rfl, rfl⟩
      | ok page =>
        simp only
        by_cases hp0 : page ≤ 0
        · rw [if_pos hp0]
          exact ⟨rfl, rfl, rfl, rfl, rfl, rfl⟩
        · exfalso
          rcases h with h | h
          · exact h ⟨limit, hl, by omega⟩
          · exact h ⟨page, hp, by omega⟩

/-- C2 at the request `limit=abc` against the in-memory service. -/
theorem searchUsers_bad_pagination_witness :
    (¬ ∃ n, strconv.Atoi ((fixture.request [("limit", "abc")] "" {}).DefaultQuery "limit"
        (strconv.Itoa fixture.env.DefaultPageSize)) = .ok n ∧ 0 < n) ∧
    (searchUsers fixture.env (fixture.request [("limit", "abc")] "" {})
      fixture.store).response.status = 400 ∧
    (searchUsers fixture.env (fixture.request [("limit", "abc")] "" {})
      fixture.store).calls = [] :=
  have hbad : ¬ ∃ n, strconv.Atoi ((fixture.request [("limit", "abc")] "" {}).DefaultQuery
      "limit" (strconv.Itoa fixture.env.DefaultPageSize)) = .ok n ∧ 0 < n :=
    fun ⟨_, hn, _⟩ => Except.noConfusion hn
  have h := searchUsers_bad_pagination fixture.env (fixture.request [("limit", "abc")] "" {})
    fixture.store (Or.inl hbad)
  ⟨hbad, h.2.1, h.2.2.2.2.1⟩

/-- C4: in `getUser`, when `Get` reports no error and `exists = false` the response is a
failure with status 404 whose data is never set; when it reports a user, the response
data is `view.FromUser` of that user. -/
theorem getUser_found_or_404 (E : Env σ) (c : gin.Context) (s : σ)
    (us : services.UserService σ) (hsvc : E.GetUserService = .ok us) :
    (us.Get s (c.Param "username") = .ok none →
      (getUser E c s).response.success = false ∧
      (getUser E c s).response.status = 404 ∧
      (getUser E c s).response.data = none ∧
      (getUser E c s).response.sent = true) ∧
    (∀ user, us.Get s (c.Param "username") = .ok (some user) →
      (getUser E c s).response.success = true ∧
      (getUser E c s).response.status = 200 ∧
      (getUser E c s).response.data = some (.user (E.FromUser user)) ∧
      (getUser E c s).response.sent = true) := by
  constructor
  · intro hget
    simp only [getUser, hsvc, hget]
    exact ⟨rfl, rfl, rfl, rfl⟩
  · intro user hget
    simp only [getUser, hsvc, hget]
    exact ⟨rfl, rfl, rfl, rfl⟩

/-- C4 at the username `bob`, which the in-memory store does not hold. -/
theorem getUser_found_or_404_witness :
    (fixture.env.GetUserService = .ok fixture.memory ∧
      fixture.memory.Get fixture.store ((fixture.request [] "bob" {}).Param "username")
        = .ok none) ∧
    (getUser fixture.env (fixture.request [] "bob" {}) fixture.store).response.status = 404 ∧
    (getUser fixture.env (fixture.request [] "bob" {}) fixture.store).response.data = none :=
  have h := (getUser_found_or_404 fixture.env (fixture.request [] "bob" {}) fixture.store
    fixture.memory rfl).1 rfl
  ⟨⟨rfl, rfl⟩, h.2.1, h.2.2.1⟩

/-- C5: in `deleteUser`, when `Get` finds a user and `Delete` succeeds, `Delete` is called
exactly once, with the loaded user's `Username`, and the response data is `view.FromUser`
of the user loaded before the deletion. -/
theorem deleteUser_returns_deleted (E : Env σ) (c : gin.Context) (s s' : σ)
    (us : services.UserService σ) (user : models.User)
    (hsvc : E.GetUserService = .ok us)
    (hget : us.Get s (c.Param "username") = .ok (some user))
    (hdel : us.Delete s user.Username = (none, s')) :
    (deleteUser E c s).calls =
      [.GetUserService, .Get (c.Param "username"), .Delete user.Username] ∧
    (deleteUser E c s).calls.filter (fun k => match k with | .Delete _ => true | _ => false) =
      [.Delete user.Username] ∧
    (deleteUser E c s).response.success = true ∧
    (deleteUser E c s).response.status = 200 ∧
    (deleteUser E c s).response.data = some (.user (E.FromUser user)) ∧
    (deleteUser E c s).response.sent = true ∧
    (deleteUser E c s).state = s' := by
  have h : deleteUser E c s =
      { response := (builder.Respond.Data (.user (E.FromUser user))).Send,
        calls := [.GetUserService, .Get (c.Param "username"), .Delete user.Username],
        state := s' } := by
    simp only [deleteUser, hsvc, hget, hdel]
    rfl
  rw [h]
  exact ⟨rfl, rfl, rfl, rfl, rfl, rfl, rfl⟩

/-- C5 at the username `alice`, the one user of the in-memory store. -/
theorem deleteUser_returns_deleted_witness :
    (fixture.env.GetUserService = .ok fixture.memory ∧
      fixture.memory.Get fixture.store ((fixture.request [] "alice" {}).Param "username")
        = .ok (some { Username := "alice", Email := "alice@example.org", Password := "secret",
                      Other := [("lang", "en")] }) ∧
      fixture.memory.Delete fixture.store "alice" = (none, [])) ∧
    (deleteUser fixture.env (fixture.request [] "alice" {}) fixture.store).calls =
      [.GetUserService, .Get "alice", .Delete "alice"] ∧
    (deleteUser fixture.env (fixture.request [] "alice" {}) fixture.store).response.data =
      some (.user { Username := "alice", Email := "alice@example.org" }) :=
  have h := deleteUser_returns_deleted fixture.env (fixture.request [] "alice" {})
    fixture.store [] fixture.memory
    { Username := "alice", Email := "alice@example.org", Password := "secret",
      Other := [("lang", "en")] } rfl rfl rfl
  ⟨⟨rfl, rfl, rfl⟩, h.1, h.2.2.2.2.1⟩

/-- C7: in `updateUser` and `deleteUser`, when `Get` reports no error and `exists = false`,
the response is a failure with status 404, `Update` (respectively `Delete`) is never
called, and the store of the service is left as it was. -/
theorem update_delete_missing_user (E : Env σ) (c : gin.Context) (s : σ)
    (us : services.UserService σ) (hsvc : E.GetUserService = .ok us)
    (hget : us.Get s (c.Param "username") = .ok none) :
    ((∀ user, Call.Update user ∉ (updateUser E c s).calls) ∧
      (updateUser E c s).state = s ∧
      (∀ viewModel, c.BindJSON = .ok viewModel → E.Valid viewModel true = none →
        (updateUser E c s).response.success = false ∧
        (updateUser E c s).response.status = 404 ∧
        (updateUser E c s).response.data = none ∧
        (updateUser E c s).response.sent = true)) ∧
    ((∀ username, Call.Delete username ∉ (deleteUser E c s).calls) ∧
      (deleteUser E c s).state = s ∧
      (deleteUser E c s).response.success = false ∧
      (deleteUser E c s).response.status = 404 ∧
      (deleteUser E c s).response.data = none ∧
      (deleteUser E c s).response.sent = true) := by
  constructor
  · refine ⟨?_, ?_, ?_⟩
    · intro user
      simp only [updateUser, hsvc, hget]
      cases c.BindJSON with
      | error e => simp
      | ok viewModel =>
        simp only
        cases E.Valid viewModel true <;> simp
    · simp only [updateUser, hsvc, hget]
      cases c.BindJSON with
      | error e => rfl
      | ok viewModel =>
        simp only
        cases E.Valid viewModel true <;> rfl
    · intro viewModel hbody hvalid
      simp only [updateUser, hsvc, hget, hbody, hvalid]
      exact ⟨rfl, rfl, rfl, rfl⟩
  · have h : deleteUser E c s =
        { response :=
            ((builder.Respond.Fail.Status http.StatusNotFound).Message
              "no user with username").Send,
          calls := [.GetUserService, .Get (c.Param "username")], state := s } := by
      simp only [deleteUser, hsvc, hget]
    rw [h]
    refine ⟨?_, rfl, rfl, rfl, rfl, rfl⟩
    intro username
    simp

/-- C7 at the username `bob`, which the in-memory store does not hold. -/
theorem update_delete_missing_user_witness :
    (fixture.env.GetUserService = .ok fixture.memory ∧
      fixture.memory.Get fixture.store
        ((fixture.request [] "bob" { Email := "bob@example.org" }).Param "username")
        = .ok none) ∧
    (updateUser fixture.env (fixture.request [] "bob" { Email := "bob@example.org" })
      fixture.store).response.status = 404 ∧
    (deleteUser fixture.env (fixture.request [] "bob" { Email := "bob@example.org" })
      fixture.store).response.status = 404 :=
  have h := update_delete_missing_user fixture.env
    (fixture.request [] "bob" { Email := "bob@example.org" }) fixture.store fixture.memory
    rfl rfl
  ⟨⟨rfl, rfl⟩, (h.1.2.2 { Email := "bob@example.org" } rfl rfl).2.1,
    h.2.2.2.2.1⟩

/-- C9: every route of `registerUsers` that is not an OPTIONS route has the chain
`OAuth2(scope, false)` followed by one operation handler, with scope `users.view` for
GET `/:username` and `users.edit` for the search, PUT, POST and DELETE; the two OPTIONS
routes have no OAuth2 link. -/
theorem registerUsers_scopes (r : Route) (hr : r ∈ registerUsers) :
    (r.method ≠ "OPTIONS" →
      ∃ op, r.chain =
          [Handler.OAuth2
            (if r.method = "GET" ∧ r.path = "/:username" then "users.view" else "users.edit")
            false, op] ∧
        op ∈ [Handler.searchUsers, Handler.createUser, Handler.getUser, Handler.updateUser,
          Handler.deleteUser]) ∧
    (r.method = "OPTIONS" → ∀ scope flag, Handler.OAuth2 scope flag ∉ r.chain) ∧
    (registerUsers.filter (fun r => r.method != "OPTIONS")).map (fun r => (r.method, r.path)) =
      [("GET", ""), ("PUT", "/:username"), ("GET", "/:username"), ("POST", "/:username"),
       ("DELETE", "/:username")] ∧
    (registerUsers.filter (fun r => r.method == "OPTIONS")).map (fun r => (r.method, r.path)) =
      [("OPTIONS", ""), ("OPTIONS", "/:username")] := by
  refine ⟨?_, ?_, by decide, by decide⟩
  · simp only [registerUsers, List.mem_cons, List.mem_singleton, List.not_mem_nil, or_false]
      at hr
    rcases hr with rfl | rfl | rfl | rfl | rfl | rfl | rfl
    · intro _; exact ⟨.searchUsers, by decide⟩
    · intro h; exact absurd rfl h
    · intro _; exact ⟨.createUser, by decide⟩
    · intro _; exact ⟨.getUser, by decide⟩
    · intro _; exact ⟨.updateUser, by decide⟩
    · intro _; exact ⟨.deleteUser, by decide⟩
    · intro h; exact absurd rfl h
  · simp only [registerUsers, List.mem_cons, List.mem_singleton, List.not_mem_nil, or_false]
      at hr
    rcases hr with rfl | rfl | rfl | rfl | rfl | rfl | rfl
    · intro h; exact absurd h (by decide)
    · intro _ scope flag; simp
    · intro h; exact absurd h (by decide)
    · intro h; exact absurd h (by decide)
    · intro h; exact absurd h (by decide)
    · intro h; exact absurd h (by decide)
    · intro _ scope flag; simp

/-- C9 at the route GET `/:username`. -/
theorem registerUsers_scopes_witness :
    ({ method := "GET", path := "/:username",
       chain := [.OAuth2 "users.view" false, .getUser] } : Route) ∈ registerUsers ∧
    ∃ op, [Handler.OAuth2 "users.view" false, Handler.getUser] =
        [Handler.OAuth2 "users.view" false, op] ∧
      op ∈ [Handler.searchUsers, Handler.createUser, Handler.getUser, Handler.updateUser,
        Handler.deleteUser] :=
  ⟨by decide,
    (registerUsers_scopes
      { method := "GET", path := "/:username", chain := [.OAuth2 "users.view" false, .getUser] }
      (by decide)).1 (by decide)⟩

/-- C3: in `createUser`, when the body binds and passes `Valid(false)` but its password is
absent or empty, `Create` is never called and the response is a failure with status 400. -/
theorem createUser_password_required (E : Env σ) (c : gin.Context) (s : σ)
    (viewModel : view.UserViewModel)
    (hbody : c.BindJSON = .ok viewModel)
    (hvalid : E.Valid { viewModel with Username := c.Param "username" } false = none)
    (hpw : viewModel.Password = "") :
    (∀ user, Call.Create user ∉ (createUser E c s).calls) ∧
    (createUser E c s).state = s ∧
    (∀ us, E.GetUserService = .ok us →
      (createUser E c s).response.success = false ∧
      (createUser E c s).response.status = 400 ∧
      (createUser E c s).response.data = none ∧
      (createUser E c s).response.sent = true) := by
  have hvalid' := hvalid
  simp only [hpw] at hvalid'
  refine ⟨?_, ?_, ?_⟩
  · intro user
    cases hsvc : E.GetUserService with
    | error e => simp [createUser, hsvc]
    | ok us => simp [createUser, hsvc, hbody, hvalid', hpw]
  · cases hsvc : E.GetUserService with
    | error e => simp [createUser, hsvc]
    | ok us => simp [createUser, hsvc, hbody, hvalid', hpw]
  · intro us hsvc
    have h : createUser E c s =
        { response :=
            (shared.HandleError builder.Respond (some (errors.New "password is required"))).1,
          calls := [.GetUserService, .BindJSON,
            .Valid { viewModel with Username := c.Param "username" } false],
          state := s } := by
      simp [createUser, hsvc, hbody, hvalid', hpw]
    rw [h]
    exact ⟨rfl, rfl, rfl, rfl⟩

/-- C3 at the request PUT `/carol` with a body that has an email and no password. -/
theorem createUser_password_required_witness :
    ((fixture.request [] "carol" { Email := "carol@example.org" }).BindJSON
        = .ok { Email := "carol@example.org" } ∧
      fixture.env.Valid { Username := "carol", Email := "carol@example.org" } false = none ∧
      ({ Email := "carol@example.org" } : view.UserViewModel).Password = "") ∧
    (createUser fixture.env (fixture.request [] "carol" { Email := "carol@example.org" })
      fixture.store).response.status = 400 :=
  have h := createUser_password_required fixture.env
    (fixture.request [] "carol" { Email := "carol@example.org" }) fixture.store
    { Email := "carol@example.org" } rfl (by decide) rfl
  ⟨⟨rfl, by decide, rfl⟩, (h.2.2 fixture.memory rfl).2.1⟩

/-- C6: in `updateUser`, for an existing user and a valid view model, the entity passed
to `Update` takes the fields that are present in the view model and keeps the loaded
entity's value in every other field. -/
theorem updateUser_merges_present_fields (E : Env σ) (c : gin.Context) (s : σ)
    (us : services.UserService σ) (viewModel : view.UserViewModel) (user : models.User)
    (hcopy : E.CopyToModel = view.UserViewModel.CopyToModel)
    (hsvc : E.GetUserService = .ok us)
    (hbody : c.BindJSON = .ok viewModel)
    (hvalid : E.Valid viewModel true = none)
    (hget : us.Get s (c.Param "username") = .ok (some user)) :
    ∃ updated,
      (updateUser E c s).calls =
        [.GetUserService, .BindJSON, .Valid viewModel true, .Get (c.Param "username"),
          .Update updated] ∧
      (viewModel.Username = "" → updated.Username = user.Username) ∧
      (viewModel.Email = "" → updated.Email = user.Email) ∧
      (viewModel.Password = "" → updated.Password = user.Password) ∧
      updated.Other = user.Other ∧
      (viewModel.Username ≠ "" → updated.Username = viewModel.Username) ∧
      (viewModel.Email ≠ "" → updated.Email = viewModel.Email) ∧
      (viewModel.Password ≠ "" → updated.Password = viewModel.Password) := by
  refine ⟨view.UserViewModel.CopyToModel viewModel user, ?_, ?_, ?_, ?_, rfl, ?_, ?_, ?_⟩
  · simp only [updateUser, hsvc, hbody, hvalid, hget, hcopy]
    cases us.Update s (view.UserViewModel.CopyToModel viewModel user) with
    | mk r s' => cases r <;> rfl
  all_goals
    intro h
    simp [view.UserViewModel.CopyToModel, h]

/-- C6 at the request POST `/alice` whose body has only a new email. -/
theorem updateUser_merges_present_fields_witness :
    (fixture.env.CopyToModel = view.UserViewModel.CopyToModel ∧
      fixture.env.GetUserService = .ok fixture.memory ∧
      (fixture.request [] "alice" { Email := "a@example.net" }).BindJSON
        = .ok { Email := "a@example.net" } ∧
      fixture.env.Valid { Email := "a@example.net" } true = none ∧
      fixture.memory.Get fixture.store
        ((fixture.request [] "alice" { Email := "a@example.net" }).Param "username")
        = .ok (some { Username := "alice", Email := "alice@example.org", Password := "secret",
                      Other := [("lang", "en")] })) ∧
    ∃ updated,
      (updateUser fixture.env (fixture.request [] "alice" { Email := "a@example.net" })
        fixture.store).calls =
        [.GetUserService, .BindJSON, .Valid { Email := "a@example.net" } true, .Get "alice",
          .Update updated] ∧
      updated.Password = "secret" :=
  have ⟨updated, hcalls, _, _, hpw, _⟩ := updateUser_merges_present_fields fixture.env
    (fixture.request [] "alice" { Email := "a@example.net" }) fixture.store fixture.memory
    { Email := "a@example.net" }
    { Username := "alice", Email := "alice@example.org", Password := "secret",
      Other := [("lang", "en")] } rfl rfl rfl (by decide) rfl
  ⟨⟨rfl, rfl, rfl, by decide, rfl⟩, updated, hcalls, hpw rfl⟩

/-- C10: in `createUser`, when the body binds, the view model that is validated and copied
into the new `models.User` passed to `Create` has the `:username` path parameter as its
username, whatever username the body holds: every `Valid` call is on the bound view model
with its username replaced by the parameter, every `Create` call is on the copy of that
view model into a new user, and with the user service at hand these calls are made. -/
theorem createUser_username_from_path (E : Env σ) (c : gin.Context) (s : σ)
    (viewModel : view.UserViewModel)
    (hbody : c.BindJSON = .ok viewModel) :
    ({ viewModel with Username := c.Param "username" } : view.UserViewModel).Username
      = c.Param "username" ∧
    (∀ validated allowEmpty, Call.Valid validated allowEmpty ∈ (createUser E c s).calls →
      validated = { viewModel with Username := c.Param "username" } ∧ allowEmpty = false) ∧
    (∀ user, Call.Create user ∈ (createUser E c s).calls →
      user = E.CopyToModel { viewModel with Username := c.Param "username" } {}) ∧
    (∀ us, E.GetUserService = .ok us →
      (createUser E c s).calls.take 3 =
        [.GetUserService, .BindJSON,
          .Valid { viewModel with Username := c.Param "username" } false] ∧
      (E.Valid { viewModel with Username := c.Param "username" } false = none →
        viewModel.Password ≠ "" →
        (createUser E c s).calls =
          [.GetUserService, .BindJSON,
            .Valid { viewModel with Username := c.Param "username" } false,
            .Create (E.CopyToModel { viewModel with Username := c.Param "username" } {})])) := by
  have hshape : (createUser E c s).calls = [.GetUserService] ∨
      (createUser E c s).calls =
        [.GetUserService, .BindJSON,
          .Valid { viewModel with Username := c.Param "username" } false] ∨
      (createUser E c s).calls =
        [.GetUserService, .BindJSON,
          .Valid { viewModel with Username := c.Param "username" } false,
          .Create (E.CopyToModel { viewModel with Username := c.Param "username" } {})] := by
    cases hsvc : E.GetUserService with
    | error err =>
      left
      simp only [createUser, hsvc]
    | ok us =>
      right
      simp only [createUser, hsvc, hbody]
      cases E.Valid { viewModel with Username := c.Param "username" } false with
      | some e => left; rfl
      | none =>
        simp only
        split
        · left; rfl
        · right
          cases us.Create s
              (E.CopyToModel { viewModel with Username := c.Param "username" } {}) with
          | mk r s' => cases r <;> rfl
  refine ⟨rfl, ?_, ?_, ?_⟩
  · intro validated allowEmpty hmem
    rcases hshape with h | h | h <;> rw [h] at hmem <;> simp at hmem <;> exact hmem
  · intro user hmem
    rcases hshape with h | h | h <;> rw [h] at hmem <;> simp at hmem
    exact hmem
  · intro us hsvc
    constructor
    · simp only [createUser, hsvc, hbody]
      cases E.Valid { viewModel with Username := c.Param "username" } false with
      | some e => rfl
      | none =>
        simp only
        split
        · rfl
        · cases us.Create s
              (E.CopyToModel { viewModel with Username := c.Param "username" } {}) with
          | mk r s' => cases r <;> rfl
    · intro hvalid hpw
      simp only [createUser, hsvc, hbody, hvalid, hpw, if_false]
      cases us.Create s (E.CopyToModel { viewModel with Username := c.Param "username" } {}) with
      | mk r s' => cases r <;> rfl

/-- C10 at the request PUT `/carol` whose body names the user `mallory`. -/
theorem createUser_username_from_path_witness :
    (fixture.request [] "carol" { Username := "mallory", Password := "pw" }).BindJSON
        = .ok { Username := "mallory", Password := "pw" } ∧
    (createUser fixture.env (fixture.request [] "carol" { Username := "mallory", Password := "pw" })
      fixture.store).calls =
      [.GetUserService, .BindJSON, .Valid { Username := "carol", Password := "pw" } false,
        .Create { Username := "carol", Password := "pw" }] :=
  have h := createUser_username_from_path fixture.env
    (fixture.request [] "carol" { Username := "mallory", Password := "pw" }) fixture.store
    { Username := "mallory", Password := "pw" } rfl
  ⟨rfl, (h.2.2.2 fixture.memory rfl).2 (by decide) (by decide)⟩

end api
